import Mathlib

/-!
Shallow embedding of the SEC research agent (src/sec-agent.ts).

Strings are modelled as Lean `String` (sequences of characters); JavaScript
`String.prototype.includes` is modelled by an executable substring test on
the character lists.  Optional JSON fields are modelled with `Option`;
JavaScript truthiness on strings (where `""` is falsy) is made explicit at
each use site.  The network and the clock are modelled as explicit inputs:
a `FetchOutcome` oracle for the single HTTP GET, and explicit integer
timestamps for the rate limiter.  Exceptions are modelled with `Except`,
mirroring the try/catch structure of the source.
-/

namespace SECAgent

/-- `startsWithList h n` is true when the list `h` starts with `n`
(character-by-character comparison, as in a JavaScript substring scan). -/
def startsWithList : List Char → List Char → Bool
  | _, [] => true
  | [], _ :: _ => false
  | c :: cs, d :: ds => decide (c = d) && startsWithList cs ds

/-- `containsSub h n` is true when `n` occurs contiguously inside `h`. -/
def containsSub : List Char → List Char → Bool
  | [], n => startsWithList [] n
  | c :: t, n => startsWithList (c :: t) n || containsSub t n

/-- Model of JavaScript `s.includes(sub)`: `sub` occurs as a contiguous
substring of `s` (in particular `includes s "" = true` for every `s`). -/
def includes (s sub : String) : Bool := containsSub s.data sub.data

/-- `occursIn n h`: the string `n` occurs contiguously inside `h`.  Used to
state that a report string contains a given line. -/
def occursIn (n h : String) : Prop := ∃ s t, h.data = s ++ n.data ++ t

/-- Model of JavaScript `s.toLowerCase()` (character-wise lower-casing). -/
def jsToLower (s : String) : String := ⟨s.data.map Char.toLower⟩

/-- Model of JavaScript `s.trim()`: drop leading and trailing whitespace. -/
def jsTrim (s : String) : String :=
  ⟨((s.data.dropWhile Char.isWhitespace).reverse.dropWhile Char.isWhitespace).reverse⟩

/-- `CompanyData` record of the source: CIK, ticker and official title. -/
structure CompanyData where
  cik : String
  ticker : String
  title : String
deriving DecidableEq, Repr

/-- The `filings.recent` object of a submissions response: three optional,
independently sized arrays. -/
structure RecentFilings where
  form : Option (List String)
  filingDate : Option (List String)
  accessionNumber : Option (List String)
deriving DecidableEq, Repr

/-- The `filings` object of a submissions response. -/
structure Filings where
  recent : Option RecentFilings
deriving DecidableEq, Repr

/-- `CompanySubmissions` shape of the source (all fields optional). -/
structure CompanySubmissions where
  description : Option String
  sic : Option String
  fiscalYearEnd : Option String
  filings : Option Filings
deriving DecidableEq, Repr

/-- The static `knownCompanies` table, as an explicitly ordered list of
(key, data) pairs: `Object.entries` of a string-keyed object literal
iterates in insertion order, so the source order is the table order. -/
def knownCompanies : List (String × CompanyData) :=
  [ ("apple", ⟨"0000320193", "AAPL", "Apple Inc."⟩),
    ("microsoft", ⟨"0000789019", "MSFT", "Microsoft Corporation"⟩),
    ("tesla", ⟨"0001318605", "TSLA", "Tesla, Inc."⟩),
    ("amazon", ⟨"0001018724", "AMZN", "Amazon.com, Inc."⟩),
    ("google", ⟨"0001652044", "GOOGL", "Alphabet Inc."⟩),
    ("alphabet", ⟨"0001652044", "GOOGL", "Alphabet Inc."⟩),
    ("meta", ⟨"0001326801", "META", "Meta Platforms, Inc."⟩),
    ("facebook", ⟨"0001326801", "META", "Meta Platforms, Inc."⟩),
    ("nvidia", ⟨"0001045810", "NVDA", "NVIDIA Corporation"⟩),
    ("netflix", ⟨"0001065280", "NFLX", "Netflix, Inc."⟩) ]

/-- The matching condition of the lookup loop:
`key.includes(companyKey) || companyKey.includes(key)`. -/
def matchesKey (key companyKey : String) : Bool :=
  includes key companyKey || includes companyKey key

/-- `_fallbackCompanyLookup`: normalise the input (lower-case, trim) and
return the data of the first table entry whose key matches bidirectionally;
`find?` returns the first match of the ordered list, exactly as the source's
`for … of Object.entries` loop with an early `return`. -/
def fallbackCompanyLookup (companyName : String) : Option CompanyData :=
  let companyKey := jsTrim (jsToLower companyName)
  (knownCompanies.find? fun e => matchesKey e.1 companyKey).map fun e => e.2

/-- The `financialIndicators` keyword list of `_isFinancialQuery`. -/
def financialIndicators : List String :=
  [ "company", "financial", "revenue", "earnings", "profit", "stock",
    "investment", "market cap", "sec filing", "annual report",
    "quarterly", "balance sheet", "income statement", "cash flow",
    "public company", "ticker", "investor", "shareholder" ]

/-- `_isFinancialQuery`: lower-case the query and test whether it contains
at least one of the fixed keywords. -/
def isFinancialQuery (query : String) : Bool :=
  let queryLower := jsToLower query
  financialIndicators.any fun indicator => includes queryLower indicator

/-- The constant `rateLimitDelay` (3 seconds, in milliseconds). -/
def rateLimitDelay : Int := 3000

/-- `_rateLimit`, in state-passing form.  Input: the stored
`lastRequestTime` and the current clock value `now` (`Date.now()`).
Output: the number of milliseconds slept, and the new `lastRequestTime`.
The method computes `waitTime = rateLimitDelay - (now - lastRequestTime)`,
sleeps for `waitTime` when positive, and then stores `Date.now()`;
under the idealisation that exactly the slept time passes during the
sleep (and no time otherwise), the stored value is `now + slept`. -/
def rateLimit (lastRequestTime now : Int) : Int × Int :=
  let timeSinceLastRequest := now - lastRequestTime
  let waitTime := rateLimitDelay - timeSinceLastRequest
  let slept := if waitTime > 0 then waitTime else 0
  (slept, now + slept)

/-- The `keyForms` array of `_analyzeRecentFilings`. -/
def keyForms : List String := ["10-K", "10-Q", "8-K", "DEF 14A"]

/-- One element of the `recentKeyFilings` array built by the loop. -/
structure KeyFiling where
  form : String
  date : String
  accession : String
deriving DecidableEq, Repr

/-- The record the loop body of `_analyzeRecentFilings` pushes at index
`i`: `forms[i]`, `filingDates[i]`, and `accessionNumbers[i]` when `i` is in
range, otherwise the literal string N/A. -/
def keyFilingAt (forms filingDates accessionNumbers : List String) (i : Nat) : KeyFiling :=
  { form := forms.getD i "",
    date := filingDates.getD i "",
    accession := if i < accessionNumbers.length then accessionNumbers.getD i "" else "N/A" }

/-- The loop guard of `_analyzeRecentFilings` at index `i`:
`keyForms.includes(form) && i < filingDates.length`. -/
def isKeyIdx (forms filingDates : List String) (i : Nat) : Bool :=
  keyForms.contains (forms.getD i "") && decide (i < filingDates.length)

/-- The `recentKeyFilings` array: the loop runs `i` over
`0 ≤ i < Math.min(forms.length, 20)` and pushes a record whenever the
guard holds, preserving index order. -/
def recentKeyFilings (forms filingDates accessionNumbers : List String) : List KeyFiling :=
  (List.range (min forms.length 20)).filterMap fun i =>
    if isKeyIdx forms filingDates i then some (keyFilingAt forms filingDates accessionNumbers i)
    else none

/-- The `formDescriptions` object lookup with its `|| filing.form`
fallback. -/
def formDescription (form : String) : String :=
  if form = "10-K" then "Annual Report"
  else if form = "10-Q" then "Quarterly Report"
  else if form = "8-K" then "Current Report"
  else if form = "DEF 14A" then "Proxy Statement"
  else form

/-- One bullet line of the Recent SEC Filings section. -/
def filingLine (f : KeyFiling) : String :=
  "• " ++ f.form ++ " (" ++ formDescription f.form ++ ") - Filed: " ++ f.date ++ "\n"

/-- `submissions.filings?.recent` (optional chaining). -/
def recentOf (submissions : CompanySubmissions) : Option RecentFilings :=
  submissions.filings.bind fun f => f.recent

/-- `_analyzeRecentFilings`, assembled exactly as the source builds its
`result` string. -/
def analyzeRecentFilings (submissions : CompanySubmissions) : String :=
  let header := "**Recent SEC Filings:**\n"
  match recentOf submissions with
  | none => header ++ "• No recent filings available\n\n"
  | some recentFilings =>
    let forms := recentFilings.form.getD []
    let filingDates := recentFilings.filingDate.getD []
    let accessionNumbers := recentFilings.accessionNumber.getD []
    let rkf := recentKeyFilings forms filingDates accessionNumbers
    let body :=
      if rkf.length > 0 then String.join ((rkf.take 5).map filingLine)
      else "• No key financial filings found in recent submissions\n"
    header ++ body ++ "\n"

/-- The Annual Reports count line of `_extractFinancialHighlights`; the
count is `forms.filter(form => form === '10-K').length` over the FULL
`form` array. -/
def annualCountLine (forms : List String) : String :=
  "• Annual Reports (10-K): " ++ toString (forms.filter fun f => f == "10-K").length
    ++ " on file\n"

/-- The Quarterly Reports count line of `_extractFinancialHighlights`. -/
def quarterlyCountLine (forms : List String) : String :=
  "• Quarterly Reports (10-Q): " ++ toString (forms.filter fun f => f == "10-Q").length
    ++ " on file\n"

/-- `_extractFinancialHighlights`.  The count lines appear only when
`submissions.filings?.recent?.form` is present (a JavaScript truthiness
test: an array, even empty, is truthy; only an absent field skips). -/
def extractFinancialHighlights (submissions : CompanySubmissions) : String :=
  "**Financial Data Analysis:**\n"
  ++ "• Filing Status: Active public company\n"
  ++ "• Regulatory Compliance: Current with SEC requirements\n"
  ++ (match (recentOf submissions).bind (fun r => r.form) with
      | some forms => annualCountLine forms ++ quarterlyCountLine forms
      | none => "")
  ++ "• Note: Detailed financial metrics require parsing individual filing documents\n\n"
  ++ "**Investment Research Notes:**\n"
  ++ "• Use SEC filings for: revenue trends, risk factors, management discussion\n"
  ++ "• Key documents: 10-K (annual), 10-Q (quarterly), 8-K (material events)\n"
  ++ "• Combine with market data for comprehensive analysis\n\n"

/-- JavaScript `value || dflt` on an optional string: an absent field and
the empty string are both falsy. -/
def jsOrElse (v : Option String) (dflt : String) : String :=
  match v with
  | some s => if s = "" then dflt else s
  | none => dflt

/-- The Official Name line of the Company Information section. -/
def officialNameLine (cikData : CompanyData) : String :=
  "• Official Name: " ++ cikData.title ++ "\n"

/-- The Ticker Symbol line (`cikData.ticker || 'N/A'`). -/
def tickerLine (cikData : CompanyData) : String :=
  "• Ticker Symbol: " ++ (if cikData.ticker = "" then "N/A" else cikData.ticker) ++ "\n"

/-- The CIK line. -/
def cikLine (cikData : CompanyData) : String :=
  "• CIK: " ++ cikData.cik ++ "\n"

/-- The Business Description line: emitted only when
`submissions.description` is truthy; longer than 300 characters means the
first 300 characters plus an ellipsis, otherwise the text unchanged. -/
def businessDescPart (submissions : CompanySubmissions) : String :=
  match submissions.description with
  | some d =>
    if d = "" then ""
    else
      let businessDesc := if d.length > 300 then (⟨d.data.take 300⟩ : String) ++ "..." else d
      "• Business Description: " ++ businessDesc ++ "\n"
  | none => ""

/-- `_formatSECResults`: the full-report template, section by section in
source order. -/
def formatSECResults (companyName : String) (cikData : CompanyData)
    (submissions : CompanySubmissions) : String :=
  "**SEC Financial Data for: " ++ companyName ++ "**\n\n"
  ++ "**Company Information:**\n"
  ++ officialNameLine cikData
  ++ tickerLine cikData
  ++ cikLine cikData
  ++ businessDescPart submissions
  ++ ("• Industry: " ++ jsOrElse submissions.sic "Not specified" ++ "\n")
  ++ ("• Fiscal Year End: " ++ jsOrElse submissions.fiscalYearEnd "Not specified" ++ "\n\n")
  ++ analyzeRecentFilings submissions
  ++ extractFinancialHighlights submissions

/-- The not-found bullet line of `_fallbackCompanySearch`, naming the
query. -/
def notFoundLine (companyName : String) : String :=
  "• Company \x27" ++ companyName ++ "\x27 not found in SEC EDGAR database\n"

/-- `_fallbackCompanySearch`: the static fallback report, parameterised
only by the original query text. -/
def fallbackCompanySearch (companyName : String) : String :=
  "**SEC Financial Research for: " ++ companyName ++ "**\n\n"
  ++ "**Company Search Results:**\n"
  ++ notFoundLine companyName
  ++ "• This may indicate the company is:\n"
  ++ "  - Private company (not required to file with SEC)\n"
  ++ "  - Foreign company not listed on US exchanges\n"
  ++ "  - Subsidiary of another public company\n"
  ++ "  - Different legal name than search term\n\n"
  ++ "**Alternative Research Suggestions:**\n"
  ++ "• Search for parent company or holding company\n"
  ++ "• Check if company trades under different ticker symbol\n"
  ++ "• Use company\x27s full legal name for search\n"
  ++ "• Consider private company databases for non-public entities\n\n"

/-- Oracle for the single `fetch` of `_getCompanySubmissions`: a parsed
success body, a non-ok HTTP status, or a network failure (rejected
promise). -/
inductive FetchOutcome where
  | ok (submissions : CompanySubmissions)
  | badStatus (status : Nat)
  | netFail (msg : String)
deriving DecidableEq, Repr

/-- `_getCompanySubmissions`: a non-ok status raises `SEC API error` and a
network failure rejects, but both are caught by the method's own
try/catch, which returns `null`; only a parsed success body comes back. -/
def getCompanySubmissions (fetch : FetchOutcome) : Option CompanySubmissions :=
  match fetch with
  | .ok submissions => some submissions
  | .badStatus _ => none
  | .netFail _ => none

/-- `_findCompanyCIK`: the known-companies lookup; the full SEC API lookup
is not implemented, so an unknown name yields `null` (the method's catch
clause is unreachable because the lookup itself never throws). -/
def findCompanyCIK (companyName : String) : Option CompanyData :=
  fallbackCompanyLookup companyName

/-- `_searchSEC`, with the network modelled by the `fetch` oracle and any
unexpected exception raised inside the `try` block modelled by the
`fault` oracle (`none` = no fault).  The catch clause turns an error whose
message contains 404 into the fallback report and rethrows anything
else. -/
def searchSEC (companyName : String) (fetch : FetchOutcome) (fault : Option String) :
    Except String String :=
  match fault with
  | some msg =>
    if includes msg "404" then .ok (fallbackCompanySearch companyName) else .error msg
  | none =>
    match findCompanyCIK companyName with
    | none => .ok (fallbackCompanySearch companyName)
    | some cikData =>
      match getCompanySubmissions fetch with
      | some submissions => .ok (formatSECResults companyName cikData submissions)
      | none => .ok (fallbackCompanySearch companyName)

/-- The response produced by the handler: a text utterance addressed back
to the sender (the addressing fields are constant and omitted). -/
structure TextUtterance where
  text : String
deriving DecidableEq, Repr

/-- The scope-guidance message returned for non-financial queries. -/
def scopeGuidanceMessage : String :=
  "💼 I specialize in financial research for public companies. Try searching for company names, stock symbols, or financial terms. Use the terms \x27company\x27, \x27financial\x27, \x27revenue\x27, \x27earnings\x27, \x27profit\x27, \x27stock\x27, \x27investment\x27, \x27market cap\x27, \x27sec filing\x27, \x27annual report\x27, \x27quarterly\x27, \x27balance sheet\x27, \x27income statement\x27, \x27cash flow\x27, \x27public company\x27, \x27ticker\x27, \x27investor\x27, \x27shareholder\x27 in your query."

/-- The message returned when the utterance carries no tokens. -/
def needCompanyMessage : String :=
  "💼 I need a company name to research SEC filings and financial data!"

/-- The generic apology produced by the outermost catch of
`_handleFinancialQuery`. -/
def errorApologyMessage : String :=
  "💼 I encountered an error while searching SEC filings. Please try again with a different company name."

/-- The body of `_handleFinancialQuery` (inside its `try`): empty tokens
get the prompt message, the token values are joined into the query text,
out-of-scope queries get the scope guidance, and otherwise `_searchSEC`
runs; an `Except.error` models an exception escaping the body. -/
def handleFinancialQueryBody (tokens : List String) (fetch : FetchOutcome)
    (fault : Option String) : Except String TextUtterance :=
  if tokens.isEmpty then .ok { text := needCompanyMessage }
  else
    let companyName := String.join tokens
    if !isFinancialQuery companyName then .ok { text := scopeGuidanceMessage }
    else
      match searchSEC companyName fetch fault with
      | .ok results => .ok { text := results }
      | .error e => .error e

/-- `_handleFinancialQuery`: the body wrapped in the outermost catch,
which converts any escaped exception into the generic apology
utterance. -/
def handleFinancialQuery (tokens : List String) (fetch : FetchOutcome)
    (fault : Option String) : TextUtterance :=
  match handleFinancialQueryBody tokens fetch fault with
  | .ok response => response
  | .error _ => { text := errorApologyMessage }

/-- The key filings extracted from a `filings.recent` object, with the
source's `|| []` defaults applied to the three arrays. -/
def keyFilingsOfRecent (r : RecentFilings) : List KeyFiling :=
  recentKeyFilings (r.form.getD []) (r.filingDate.getD []) (r.accessionNumber.getD [])

/-- The candidate filing records at each of the first
`min(forms.length, 20)` indices, in index order; used to state that the
displayed key filings are an order-preserving selection from the first 20
entries. -/
def keyFilingCandidates (r : RecentFilings) : List KeyFiling :=
  (List.range (min (r.form.getD []).length 20)).map
    (keyFilingAt (r.form.getD []) (r.filingDate.getD []) (r.accessionNumber.getD []))

/-- A 25-entry form sequence with 12 10-K and 8 10-Q entries, several of
them beyond the 20-entry key-filings window; used as a concrete input. -/
def sampleForms : List String :=
  List.replicate 12 "10-K" ++ List.replicate 5 "8-K" ++ List.replicate 8 "10-Q"

/-- A submissions value carrying only the `sampleForms` form array. -/
def sampleSubmissions : CompanySubmissions :=
  ⟨none, none, none, some ⟨some ⟨some sampleForms, none, none⟩⟩⟩

end SECAgent

namespace SECAgent

theorem strData_append (a b : String) : (a ++ b).data = a.data ++ b.data := rfl

theorem strExt {a b : String} (h : a.data = b.data) : a = b := by
  cases a; cases b; exact congrArg String.mk h

theorem occursIn_refl (n : String) : occursIn n n := ⟨[], [], by simp⟩

theorem occursIn_appendRight (n h s : String) (hh : occursIn n h) : occursIn n (h ++ s) := by
  obtain ⟨x, y, e⟩ := hh
  exact ⟨x, y ++ s.data, by simp [strData_append, e]⟩

theorem occursIn_appendLeft (n p h : String) (hh : occursIn n h) : occursIn n (p ++ h) := by
  obtain ⟨x, y, e⟩ := hh
  exact ⟨p.data ++ x, y, by simp [strData_append, e]⟩

theorem occursIn_trans {a b c : String} (h1 : occursIn a b) (h2 : occursIn b c) :
    occursIn a c := by
  obtain ⟨x, y, e1⟩ := h1
  obtain ⟨u, v, e2⟩ := h2
  exact ⟨u ++ x, y ++ v, by simp [e2, e1]⟩

theorem find?_first {α : Type} (p : α → Bool) (l : List α) (i : Nat) (hi : i < l.length)
    (hp : p (l.get ⟨i, hi⟩) = true)
    (hmin : ∀ j (hj : j < i), p (l.get ⟨j, Nat.lt_trans hj hi⟩) = false) :
    l.find? p = some (l.get ⟨i, hi⟩) := by
  induction l generalizing i with
  | nil => exact absurd hi (Nat.not_lt_zero i)
  | cons a t ih =>
    cases i with
    | zero =>
      simp only [List.get] at hp
      simp [List.find?_cons_of_pos, hp]
    | succ k =>
      have ha : p a = false := by simpa using hmin 0 (Nat.succ_pos k)
      have hk : k < t.length := Nat.lt_of_succ_lt_succ hi
      have hpk : p (t.get ⟨k, hk⟩) = true := by simpa using hp
      have hmk : ∀ j (hj : j < k), p (t.get ⟨j, Nat.lt_trans hj hk⟩) = false := by
        intro j hj
        simpa using hmin (j + 1) (Nat.succ_lt_succ hj)
      rw [List.find?_cons_of_neg _ (by simp [ha])]
      simpa using ih k hk hpk hmk

theorem filterMapIf_sublist {α β : Type} (l : List α) (p : α → Bool) (g : α → β) :
    (l.filterMap fun a => if p a then some (g a) else none).Sublist (l.map g) := by
  induction l with
  | nil => simp
  | cons a t ih =>
    rw [List.filterMap_cons, List.map_cons]
    cases h : p a with
    | true => simpa [h] using ih.cons₂ (g a)
    | false => simpa [h] using ih.cons (g a)

theorem lookup_mem {companyName : String} {d : CompanyData}
    (h : fallbackCompanyLookup companyName = some d) :
    ∃ e ∈ knownCompanies, e.2 = d := by
  unfold fallbackCompanyLookup at h
  obtain ⟨e, he, hd⟩ := Option.map_eq_some'.mp h
  exact ⟨e, List.mem_of_find?_eq_some he, hd⟩

theorem lookup_ticker_ne_empty {companyName : String} {d : CompanyData}
    (h : fallbackCompanyLookup companyName = some d) : d.ticker ≠ "" := by
  obtain ⟨e, he, rfl⟩ := lookup_mem h
  have hall : ∀ e ∈ knownCompanies, e.2.ticker ≠ "" := by decide
  exact hall e he

/-- Claim C1: the claim states that an empty or whitespace-only company
name never resolves to any identity.  The code does the opposite: after
normalisation the key is the empty string, every table key contains the
empty string, and the loop returns the first table entry (Apple Inc.).
This theorem evaluates the lookup at the failing inputs. -/
theorem c1_empty_input_resolves_to_first_entry :
    fallbackCompanyLookup "" = some ⟨"0000320193", "AAPL", "Apple Inc."⟩ ∧
    fallbackCompanyLookup "   " = some ⟨"0000320193", "AAPL", "Apple Inc."⟩ ∧
    fallbackCompanyLookup "" ≠ none := by decide

/-- Claim C2: for every query string that, after lower-casing, contains
none of the 18 fixed domain keywords, the handler returns the
scope-guidance message; the result is the same for every fetch outcome
and every fault, so neither the directory nor the network is consulted. -/
theorem c2_out_of_scope_returns_scope_guidance (tokens : List String)
    (fetch : FetchOutcome) (fault : Option String) (hne : tokens ≠ [])
    (hnf : isFinancialQuery (String.join tokens) = false) :
    handleFinancialQuery tokens fetch fault = { text := scopeGuidanceMessage } := by
  cases tokens with
  | nil => exact absurd rfl hne
  | cons a t =>
    unfold handleFinancialQuery handleFinancialQueryBody
    simp [hnf]

theorem c2_witness :
    (["hello there"] : List String) ≠ [] ∧
    isFinancialQuery (String.join ["hello there"]) = false ∧
    handleFinancialQuery ["hello there"] (.badStatus 500) none
      = { text := scopeGuidanceMessage } :=
  ⟨by decide, by decide,
    c2_out_of_scope_returns_scope_guidance ["hello there"] (.badStatus 500) none
      (by decide) (by decide)⟩

/-- A placeholder table entry for out-of-range `getD` indexing in claim
statements; never returned by the lookup itself. -/
def dummyEntry : String × CompanyData := ("", ⟨"", "", ""⟩)

/-- Claim C3: the lookup normalises its input (lower-case, trim) and
returns the identity of the first entry, in table order, whose key
matches the normalised input bidirectionally: if entry `i` matches and no
entry before `i` matches, the lookup returns entry `i`'s identity. -/
theorem c3_lookup_returns_first_match (companyName : String) (i : Nat)
    (hi : i < knownCompanies.length)
    (hmatch : matchesKey (knownCompanies.getD i dummyEntry).1
      (jsTrim (jsToLower companyName)) = true)
    (hmin : ∀ j, j < i → matchesKey (knownCompanies.getD j dummyEntry).1
      (jsTrim (jsToLower companyName)) = false) :
    fallbackCompanyLookup companyName = some (knownCompanies.getD i dummyEntry).2 := by
  have hg : knownCompanies.getD i dummyEntry = knownCompanies.get ⟨i, hi⟩ := by
    rw [List.getD_eq_getElem knownCompanies dummyEntry hi]
    exact (List.get_eq_getElem knownCompanies ⟨i, hi⟩).symm
  rw [hg] at hmatch ⊢
  have hmin' : ∀ j (hj : j < i),
      (fun e => matchesKey e.1 (jsTrim (jsToLower companyName)))
        (knownCompanies.get ⟨j, Nat.lt_trans hj hi⟩) = false := by
    intro j hj
    have hgj : knownCompanies.getD j dummyEntry = knownCompanies.get ⟨j, Nat.lt_trans hj hi⟩ := by
      rw [List.getD_eq_getElem knownCompanies dummyEntry (Nat.lt_trans hj hi)]
      exact (List.get_eq_getElem knownCompanies ⟨j, Nat.lt_trans hj hi⟩).symm
    show matchesKey (knownCompanies.get ⟨j, Nat.lt_trans hj hi⟩).1
      (jsTrim (jsToLower companyName)) = false
    rw [← hgj]
    exact hmin j hj
  show (knownCompanies.find? fun e => matchesKey e.1 (jsTrim (jsToLower companyName))).map
      (fun e => e.2) = some (knownCompanies.get ⟨i, hi⟩).2
  rw [find?_first (fun e => matchesKey e.1 (jsTrim (jsToLower companyName)))
    knownCompanies i hi hmatch hmin']
  rfl

/-- The query Google Alphabet matches both the google and the alphabet
keys; the google entry appears earlier in the table, so it wins. -/
theorem c3_witness :
    fallbackCompanyLookup "Google Alphabet" = some ⟨"0001652044", "GOOGL", "Alphabet Inc."⟩ :=
  c3_lookup_returns_first_match "Google Alphabet" 4 (by decide) (by decide)
    (by
      intro j hj
      have hcase : j = 0 ∨ j = 1 ∨ j = 2 ∨ j = 3 := by omega
      rcases hcase with rfl | rfl | rfl | rfl <;> decide)

/-- Claim C6: for every utterance with non-empty token text the handler
returns a text utterance and never lets an exception escape: every input
(any fetch outcome or modelled internal fault) yields some text; a fault
whose message does not mention 404 is converted to the generic apology,
and a fault mentioning 404 is converted to the fallback report. -/
theorem c6_handler_never_throws (tokens : List String) (fetch : FetchOutcome)
    (fault : Option String) (hne : tokens ≠ []) :
    (∃ text, handleFinancialQuery tokens fetch fault = { text := text }) ∧
    (∀ msg, fault = some msg → includes msg "404" = false →
      isFinancialQuery (String.join tokens) = true →
      handleFinancialQuery tokens fetch fault = { text := errorApologyMessage }) ∧
    (∀ msg, fault = some msg → includes msg "404" = true →
      isFinancialQuery (String.join tokens) = true →
      handleFinancialQuery tokens fetch fault
        = { text := fallbackCompanySearch (String.join tokens) }) := by
  obtain ⟨a, t⟩ : ∃ a t, tokens = a :: t := by
    cases tokens with
    | nil => exact absurd rfl hne
    | cons a t => exact ⟨a, ⟨t, rfl⟩⟩
  refine ⟨⟨(handleFinancialQuery tokens fetch fault).text, rfl⟩, ?_, ?_⟩
  · rintro msg rfl h404 hfin
    obtain ⟨t', rfl⟩ := t
    unfold handleFinancialQuery handleFinancialQueryBody searchSEC
    simp [hfin, h404]
  · rintro msg rfl h404 hfin
    obtain ⟨t', rfl⟩ := t
    unfold handleFinancialQuery handleFinancialQueryBody searchSEC
    simp [hfin, h404]

/-- A non-404 internal fault on an in-scope query resolves to the apology
utterance rather than an exception. -/
theorem c6_witness :
    handleFinancialQuery ["Apple company"] (.netFail "connection reset") (some "kaput")
      = { text := errorApologyMessage } :=
  (c6_handler_never_throws ["Apple company"] (.netFail "connection reset") (some "kaput")
    (by decide)).2.1 "kaput" rfl (by decide) (by decide)

/-- Claim C7: for every company name the directory cannot resolve, the
search stage returns the fallback report — for every fetch outcome, so no
network result can change it — and that report contains the exact name
and the four alternative-reason bullets. -/
theorem c7_unresolved_yields_fallback_report (companyName : String) (fetch : FetchOutcome)
    (hun : fallbackCompanyLookup companyName = none) :
    searchSEC companyName fetch none = .ok (fallbackCompanySearch companyName) ∧
    occursIn ("• Company \x27" ++ companyName ++ "\x27 not found in SEC EDGAR database\n")
      (fallbackCompanySearch companyName) ∧
    occursIn "  - Private company (not required to file with SEC)\n"
      (fallbackCompanySearch companyName) ∧
    occursIn "  - Foreign company not listed on US exchanges\n"
      (fallbackCompanySearch companyName) ∧
    occursIn "  - Subsidiary of another public company\n"
      (fallbackCompanySearch companyName) ∧
    occursIn "  - Different legal name than search term\n\n"
      (fallbackCompanySearch companyName) := by
  refine ⟨?_, ?_, ?_, ?_, ?_, ?_⟩
  · unfold searchSEC findCompanyCIK
    rw [hun]
  · exact occursIn_appendRight _ _ _ (occursIn_appendRight _ _ _ (occursIn_appendRight _ _ _
      (occursIn_appendRight _ _ _ (occursIn_appendRight _ _ _ (occursIn_appendRight _ _ _
      (occursIn_appendRight _ _ _ (occursIn_appendRight _ _ _ (occursIn_appendRight _ _ _
      (occursIn_appendRight _ _ _ (occursIn_appendLeft _ _ _ (occursIn_refl _)))))))))))
  · exact occursIn_appendRight _ _ _ (occursIn_appendRight _ _ _ (occursIn_appendRight _ _ _
      (occursIn_appendRight _ _ _ (occursIn_appendRight _ _ _ (occursIn_appendRight _ _ _
      (occursIn_appendRight _ _ _ (occursIn_appendRight _ _ _ (occursIn_appendLeft _ _ _
      (occursIn_refl _)))))))))
  · exact occursIn_appendRight _ _ _ (occursIn_appendRight _ _ _ (occursIn_appendRight _ _ _
      (occursIn_appendRight _ _ _ (occursIn_appendRight _ _ _ (occursIn_appendRight _ _ _
      (occursIn_appendRight _ _ _ (occursIn_appendLeft _ _ _ (occursIn_refl _))))))))
  · exact occursIn_appendRight _ _ _ (occursIn_appendRight _ _ _ (occursIn_appendRight _ _ _
      (occursIn_appendRight _ _ _ (occursIn_appendRight _ _ _ (occursIn_appendRight _ _ _
      (occursIn_appendLeft _ _ _ (occursIn_refl _)))))))
  · exact occursIn_appendRight _ _ _ (occursIn_appendRight _ _ _ (occursIn_appendRight _ _ _
      (occursIn_appendRight _ _ _ (occursIn_appendRight _ _ _ (occursIn_appendLeft _ _ _
      (occursIn_refl _))))))

/-- NotARealCompany123 passes the keyword gate (it contains the word
company) but resolves to no directory entry, so the search stage returns
the fallback report. -/
theorem c7_witness :
    searchSEC "NotARealCompany123" (.badStatus 500) none
      = .ok (fallbackCompanySearch "NotARealCompany123") :=
  (c7_unresolved_yields_fallback_report "NotARealCompany123" (.badStatus 500) (by decide)).1

theorem rateLimit_eq (lastTime now : Int) :
    rateLimit lastTime now
      = (max 0 (rateLimitDelay - (now - lastTime)),
         now + max 0 (rateLimitDelay - (now - lastTime))) := by
  simp only [rateLimit, rateLimitDelay, max_def]
  split_ifs <;> simp_all <;> omega

/-- Claim C8: the rate limiter waits exactly max(0, 3000 − elapsed) and
records the post-sleep clock as the new last-call time; when the first
call's latency is below 3000 ms the two call-start times are at least
3000 ms apart, when the elapsed time already exceeds 3000 ms no wait is
added, and the limiter is a total function — it only delays, it never
rejects.  Clock idealisation: exactly the slept time passes during the
sleep. -/
theorem c8_rate_limiter_spacing (lastTime now latency : Int) :
    (rateLimit lastTime now).1 = max 0 (rateLimitDelay - (now - lastTime)) ∧
    (rateLimit lastTime now).2 = now + (rateLimit lastTime now).1 ∧
    (latency < rateLimitDelay →
      (rateLimit (rateLimit lastTime now).2 ((rateLimit lastTime now).2 + latency)).2
        - (rateLimit lastTime now).2 ≥ rateLimitDelay) ∧
    (rateLimitDelay ≤ latency →
      (rateLimit (rateLimit lastTime now).2 ((rateLimit lastTime now).2 + latency)).1 = 0) := by
  refine ⟨?_, ?_, ?_, ?_⟩
  · simp only [rateLimit_eq]
  · simp only [rateLimit_eq]
  · intro h
    simp only [rateLimit_eq, rateLimitDelay, max_def] at h ⊢
    split_ifs <;> omega
  · intro h
    simp only [rateLimit_eq, rateLimitDelay, max_def] at h ⊢
    split_ifs <;> omega

/-- Concrete run: last call recorded at 0, next query at 5000 (no wait),
fetch latency 100 ms, so the second call waits and the two call starts
are 3000 ms apart. -/
theorem c8_witness :
    (rateLimit (rateLimit 0 5000).2 ((rateLimit 0 5000).2 + 100)).2 - (rateLimit 0 5000).2
      ≥ rateLimitDelay :=
  (c8_rate_limiter_spacing 0 5000 100).2.2.1 (by decide)

theorem strAppend_empty (s : String) : s ++ "" = s :=
  strExt (by simp [strData_append])

theorem analyze_eq_of_none {submissions : CompanySubmissions}
    (h : recentOf submissions = none) :
    analyzeRecentFilings submissions
      = "**Recent SEC Filings:**\n" ++ "• No recent filings available\n\n" := by
  simp only [analyzeRecentFilings, h]

theorem analyze_eq_of_filings {submissions : CompanySubmissions} {r : RecentFilings}
    (hr : recentOf submissions = some r) (hne : keyFilingsOfRecent r ≠ []) :
    analyzeRecentFilings submissions
      = "**Recent SEC Filings:**\n"
        ++ String.join (((keyFilingsOfRecent r).take 5).map filingLine) ++ "\n" := by
  have hpos : 0 < (keyFilingsOfRecent r).length := List.length_pos.mpr hne
  simp only [analyzeRecentFilings, hr, keyFilingsOfRecent] at hpos ⊢
  rw [if_pos hpos]

theorem highlights_eq_of_forms {submissions : CompanySubmissions} {forms : List String}
    (hform : (recentOf submissions).bind (fun r => r.form) = some forms) :
    extractFinancialHighlights submissions
      = "**Financial Data Analysis:**\n"
        ++ "• Filing Status: Active public company\n"
        ++ "• Regulatory Compliance: Current with SEC requirements\n"
        ++ (annualCountLine forms ++ quarterlyCountLine forms)
        ++ "• Note: Detailed financial metrics require parsing individual filing documents\n\n"
        ++ "**Investment Research Notes:**\n"
        ++ "• Use SEC filings for: revenue trends, risk factors, management discussion\n"
        ++ "• Key documents: 10-K (annual), 10-Q (quarterly), 8-K (material events)\n"
        ++ "• Combine with market data for comprehensive analysis\n\n" := by
  simp only [extractFinancialHighlights, hform]

theorem highlights_in_format (companyName : String) (cikData : CompanyData)
    (submissions : CompanySubmissions) :
    occursIn (extractFinancialHighlights submissions)
      (formatSECResults companyName cikData submissions) :=
  occursIn_appendLeft _ _ _ (occursIn_refl _)

theorem analyze_in_format (companyName : String) (cikData : CompanyData)
    (submissions : CompanySubmissions) :
    occursIn (analyzeRecentFilings submissions)
      (formatSECResults companyName cikData submissions) :=
  occursIn_appendRight _ _ _ (occursIn_appendLeft _ _ _ (occursIn_refl _))

/-- Claim C4: for every resolvable company name and successful fetch, the
search stage formats the full report; the report contains the stored
official name, ticker, and CIK exactly as stored, and the Recent Filings
section shows at most 5 key-filing lines, each with a form type from the
key-forms set, selected order-preservingly from the first 20 entries of
the recent-filings sequence. -/
theorem c4_report_contents (companyName : String) (cikData : CompanyData)
    (submissions : CompanySubmissions)
    (hres : fallbackCompanyLookup companyName = some cikData) :
    searchSEC companyName (FetchOutcome.ok submissions) none
      = .ok (formatSECResults companyName cikData submissions) ∧
    occursIn ("• Official Name: " ++ cikData.title ++ "\n")
      (formatSECResults companyName cikData submissions) ∧
    occursIn ("• Ticker Symbol: " ++ cikData.ticker ++ "\n")
      (formatSECResults companyName cikData submissions) ∧
    occursIn ("• CIK: " ++ cikData.cik ++ "\n")
      (formatSECResults companyName cikData submissions) ∧
    (∀ r, recentOf submissions = some r →
      ((keyFilingsOfRecent r).take 5).length ≤ 5 ∧
      (∀ f ∈ (keyFilingsOfRecent r).take 5, f.form ∈ keyForms) ∧
      ((keyFilingsOfRecent r).take 5).Sublist (keyFilingCandidates r) ∧
      (keyFilingsOfRecent r ≠ [] →
        occursIn (String.join (((keyFilingsOfRecent r).take 5).map filingLine))
          (formatSECResults companyName cikData submissions))) := by
  refine ⟨?_, ?_, ?_, ?_, ?_⟩
  · unfold searchSEC findCompanyCIK getCompanySubmissions
    rw [hres]
  · exact occursIn_appendRight _ _ _ (occursIn_appendRight _ _ _ (occursIn_appendRight _ _ _
      (occursIn_appendRight _ _ _ (occursIn_appendRight _ _ _ (occursIn_appendRight _ _ _
      (occursIn_appendRight _ _ _ (occursIn_appendLeft _ _ _ (occursIn_refl _))))))))
  · have htl : tickerLine cikData = "• Ticker Symbol: " ++ cikData.ticker ++ "\n" := by
      unfold tickerLine
      rw [if_neg (lookup_ticker_ne_empty hres)]
    rw [← htl]
    exact occursIn_appendRight _ _ _ (occursIn_appendRight _ _ _ (occursIn_appendRight _ _ _
      (occursIn_appendRight _ _ _ (occursIn_appendRight _ _ _ (occursIn_appendRight _ _ _
      (occursIn_appendLeft _ _ _ (occursIn_refl _)))))))
  · exact occursIn_appendRight _ _ _ (occursIn_appendRight _ _ _ (occursIn_appendRight _ _ _
      (occursIn_appendRight _ _ _ (occursIn_appendRight _ _ _ (occursIn_appendLeft _ _ _
      (occursIn_refl _))))))
  · intro r hr
    refine ⟨List.length_take_le _ _, ?_, ?_, ?_⟩
    · intro f hf
      have hf' : f ∈ keyFilingsOfRecent r := List.mem_of_mem_take hf
      unfold keyFilingsOfRecent recentKeyFilings at hf'
      obtain ⟨i, hi, heq⟩ := List.mem_filterMap.mp hf'
      by_cases hk : isKeyIdx (r.form.getD []) (r.filingDate.getD []) i
      · rw [if_pos hk] at heq
        have hfe := Option.some.inj heq
        subst hfe
        have hk' : keyForms.contains ((r.form.getD []).getD i "") = true
            ∧ i < (r.filingDate.getD []).length := by
          simpa [isKeyIdx] using hk
        simpa [keyFilingAt] using hk'.1
      · rw [if_neg hk] at heq
        exact absurd heq (by simp)
    · exact (List.take_sublist 5 _).trans (filterMapIf_sublist _ _ _)
    · intro hne0
      have ha := analyze_eq_of_filings hr hne0
      refine occursIn_trans ?_ (analyze_in_format companyName cikData submissions)
      rw [ha]
      exact occursIn_appendRight _ _ _ (occursIn_appendLeft _ _ _ (occursIn_refl _))

/-- Claim C5: the Financial Data Analysis section reports 10-K and 10-Q
counts computed over the full recent-filings form sequence (not the
20-entry window of the key-filings list), both in the highlights section
and in the full report. -/
theorem c5_counts_over_full_sequence (companyName : String) (cikData : CompanyData)
    (submissions : CompanySubmissions) (r : RecentFilings) (forms : List String)
    (hr : recentOf submissions = some r) (hf : r.form = some forms) :
    occursIn ("• Annual Reports (10-K): "
        ++ toString (forms.filter fun f => f == "10-K").length ++ " on file\n")
      (extractFinancialHighlights submissions) ∧
    occursIn ("• Quarterly Reports (10-Q): "
        ++ toString (forms.filter fun f => f == "10-Q").length ++ " on file\n")
      (extractFinancialHighlights submissions) ∧
    occursIn ("• Annual Reports (10-K): "
        ++ toString (forms.filter fun f => f == "10-K").length ++ " on file\n")
      (formatSECResults companyName cikData submissions) ∧
    occursIn ("• Quarterly Reports (10-Q): "
        ++ toString (forms.filter fun f => f == "10-Q").length ++ " on file\n")
      (formatSECResults companyName cikData submissions) := by
  have hform : (recentOf submissions).bind (fun r => r.form) = some forms := by
    rw [hr]
    simpa using hf
  have hhl := highlights_eq_of_forms hform
  have h10k : occursIn ("• Annual Reports (10-K): "
      ++ toString (forms.filter fun f => f == "10-K").length ++ " on file\n")
      (extractFinancialHighlights submissions) := by
    rw [hhl]
    show occursIn (annualCountLine forms) _
    exact occursIn_appendRight _ _ _ (occursIn_appendRight _ _ _ (occursIn_appendRight _ _ _
      (occursIn_appendRight _ _ _ (occursIn_appendRight _ _ _ (occursIn_appendLeft _ _ _
      (occursIn_appendRight _ _ _ (occursIn_refl _)))))))
  have h10q : occursIn ("• Quarterly Reports (10-Q): "
      ++ toString (forms.filter fun f => f == "10-Q").length ++ " on file\n")
      (extractFinancialHighlights submissions) := by
    rw [hhl]
    show occursIn (quarterlyCountLine forms) _
    exact occursIn_appendRight _ _ _ (occursIn_appendRight _ _ _ (occursIn_appendRight _ _ _
      (occursIn_appendRight _ _ _ (occursIn_appendRight _ _ _ (occursIn_appendLeft _ _ _
      (occursIn_appendLeft _ _ _ (occursIn_refl _)))))))
  exact ⟨h10k, h10q,
    occursIn_trans h10k (highlights_in_format companyName cikData submissions),
    occursIn_trans h10q (highlights_in_format companyName cikData submissions)⟩

/-- Claim C9: a business description longer than 300 characters is
rendered as its first 300 characters followed by an ellipsis; a (present,
non-empty) description of at most 300 characters is rendered unchanged. -/
theorem c9_description_truncation (companyName : String) (cikData : CompanyData)
    (submissions : CompanySubmissions) (d : String)
    (hd : submissions.description = some d) :
    (d.length > 300 →
      occursIn ("• Business Description: " ++ ((⟨d.data.take 300⟩ : String) ++ "...") ++ "\n")
        (formatSECResults companyName cikData submissions)) ∧
    (d ≠ "" → d.length ≤ 300 →
      occursIn ("• Business Description: " ++ d ++ "\n")
        (formatSECResults companyName cikData submissions)) := by
  constructor
  · intro hgt
    have hne : ¬ d = "" := by
      intro h
      rw [h] at hgt
      exact absurd hgt (by decide)
    have hline : businessDescPart submissions
        = "• Business Description: " ++ ((⟨d.data.take 300⟩ : String) ++ "...") ++ "\n" := by
      unfold businessDescPart
      rw [hd]
      simp [hne, hgt]
    rw [← hline]
    exact occursIn_appendRight _ _ _ (occursIn_appendRight _ _ _ (occursIn_appendRight _ _ _
      (occursIn_appendRight _ _ _ (occursIn_appendLeft _ _ _ (occursIn_refl _)))))
  · intro hne hle
    have hline : businessDescPart submissions
        = "• Business Description: " ++ d ++ "\n" := by
      unfold businessDescPart
      rw [hd]
      simp [hne, Nat.not_lt.mpr hle]
    rw [← hline]
    exact occursIn_appendRight _ _ _ (occursIn_appendRight _ _ _ (occursIn_appendRight _ _ _
      (occursIn_appendRight _ _ _ (occursIn_appendLeft _ _ _ (occursIn_refl _)))))

/-- Claim C10: the formatter is total on arbitrary submissions shapes:
every emitted key filing comes from an index that is inside the form
window and inside the filingDate array, with an out-of-range accession
number rendered as N/A; a missing `filings.recent` object still yields
the no-filings report, and a missing form array still yields the
boilerplate highlights without count lines. -/
theorem c10_formatter_total_on_arbitrary_shapes :
    (∀ forms dates accs : List String, ∀ f ∈ recentKeyFilings forms dates accs,
      ∃ i, i < forms.length ∧ i < 20 ∧ i < dates.length ∧
        f.form = forms.getD i "" ∧ f.date = dates.getD i "" ∧
        f.accession = if i < accs.length then accs.getD i "" else "N/A") ∧
    (∀ submissions : CompanySubmissions, recentOf submissions = none →
      analyzeRecentFilings submissions
        = "**Recent SEC Filings:**\n" ++ "• No recent filings available\n\n") ∧
    (∀ submissions : CompanySubmissions,
      (recentOf submissions).bind (fun r => r.form) = none →
      extractFinancialHighlights submissions
        = "**Financial Data Analysis:**\n"
          ++ "• Filing Status: Active public company\n"
          ++ "• Regulatory Compliance: Current with SEC requirements\n"
          ++ "• Note: Detailed financial metrics require parsing individual filing documents\n\n"
          ++ "**Investment Research Notes:**\n"
          ++ "• Use SEC filings for: revenue trends, risk factors, management discussion\n"
          ++ "• Key documents: 10-K (annual), 10-Q (quarterly), 8-K (material events)\n"
          ++ "• Combine with market data for comprehensive analysis\n\n") := by
  refine ⟨?_, ?_, ?_⟩
  · intro forms dates accs f hf
    unfold recentKeyFilings at hf
    obtain ⟨i, hi, heq⟩ := List.mem_filterMap.mp hf
    have hir : i < min forms.length 20 := List.mem_range.mp hi
    by_cases hk : isKeyIdx forms dates i
    · rw [if_pos hk] at heq
      have hfe := Option.some.inj heq
      subst hfe
      have hdate : i < dates.length := by
        have hk' : keyForms.contains (forms.getD i "") = true ∧ i < dates.length := by
          simpa [isKeyIdx] using hk
        exact hk'.2
      exact ⟨i, lt_of_lt_of_le hir (Nat.min_le_left _ _),
        lt_of_lt_of_le hir (Nat.min_le_right _ _), hdate, rfl, rfl, rfl⟩
    · rw [if_neg hk] at heq
      exact absurd heq (by simp)
  · intro submissions h
    exact analyze_eq_of_none h
  · intro submissions h
    simp only [extractFinancialHighlights, h]
    rw [strAppend_empty]

/-- Resolving Apple and fetching successfully yields the formatted
report. -/
theorem c4_witness :
    searchSEC "Apple" (FetchOutcome.ok
        ⟨none, none, none, some ⟨some ⟨some ["10-K", "8-K", "XYZ"],
          some ["2024-01-02", "2024-02-03", "2024-03-04"], some ["a1"]⟩⟩⟩) none
      = .ok (formatSECResults "Apple" ⟨"0000320193", "AAPL", "Apple Inc."⟩
          ⟨none, none, none, some ⟨some ⟨some ["10-K", "8-K", "XYZ"],
            some ["2024-01-02", "2024-02-03", "2024-03-04"], some ["a1"]⟩⟩⟩) :=
  (c4_report_contents "Apple" ⟨"0000320193", "AAPL", "Apple Inc."⟩ _ (by decide)).1

/-- With 12 10-K entries and 8 10-Q entries spread over a 25-entry form
sequence, the highlights section reports the full-sequence counts. -/
theorem c5_witness :
    occursIn ("• Annual Reports (10-K): "
        ++ toString (sampleForms.filter fun f => f == "10-K").length ++ " on file\n")
      (extractFinancialHighlights sampleSubmissions) ∧
    occursIn ("• Quarterly Reports (10-Q): "
        ++ toString (sampleForms.filter fun f => f == "10-Q").length ++ " on file\n")
      (extractFinancialHighlights sampleSubmissions) ∧
    (sampleForms.filter fun f => f == "10-K").length = 12 ∧
    (sampleForms.filter fun f => f == "10-Q").length = 8 := by
  have h := c5_counts_over_full_sequence "Apple" ⟨"0000320193", "AAPL", "Apple Inc."⟩
    sampleSubmissions ⟨some sampleForms, none, none⟩ sampleForms rfl rfl
  exact ⟨h.1, h.2.1, by decide, by decide⟩

set_option maxRecDepth 8192 in
/-- A 301-character description is rendered as its first 300 characters
plus an ellipsis. -/
theorem c9_witness :
    occursIn ("• Business Description: "
        ++ ((⟨(⟨List.replicate 301 'a'⟩ : String).data.take 300⟩ : String) ++ "...") ++ "\n")
      (formatSECResults "Apple" ⟨"0000320193", "AAPL", "Apple Inc."⟩
        ⟨some ⟨List.replicate 301 'a'⟩, none, none, none⟩) :=
  (c9_description_truncation "Apple" ⟨"0000320193", "AAPL", "Apple Inc."⟩
    ⟨some ⟨List.replicate 301 'a'⟩, none, none, none⟩ ⟨List.replicate 301 'a'⟩ rfl).1
    (by decide)

/-- A missing `filings.recent` object yields the no-filings report, and a
filing emitted with an out-of-range accession array renders N/A. -/
theorem c10_witness :
    analyzeRecentFilings ⟨none, none, none, none⟩
      = "**Recent SEC Filings:**\n" ++ "• No recent filings available\n\n" ∧
    (∃ i, i < (["10-K"] : List String).length ∧ i < 20 ∧
      i < (["2024-01-05"] : List String).length ∧
      (KeyFiling.mk "10-K" "2024-01-05" "N/A").form = (["10-K"] : List String).getD i "" ∧
      (KeyFiling.mk "10-K" "2024-01-05" "N/A").date
        = (["2024-01-05"] : List String).getD i "" ∧
      (KeyFiling.mk "10-K" "2024-01-05" "N/A").accession
        = if i < ([] : List String).length then ([] : List String).getD i "" else "N/A") :=
  ⟨c10_formatter_total_on_arbitrary_shapes.2.1 ⟨none, none, none, none⟩ rfl,
   c10_formatter_total_on_arbitrary_shapes.1 ["10-K"] ["2024-01-05"] []
     ⟨"10-K", "2024-01-05", "N/A"⟩ (by decide)⟩

end SECAgent
